import Mathlib

/-
Verification development for the pdffitx modeling core.

The definitions below are a shallow embedding of the Python sources:

  * pdffitx/modeling/adding.py   (add_scale, add_delta, add_lat, add_adp,
    add_xyz, rename_by_atom, bleach)
  * pdffitx/modeling/fitfuncs.py (sgconstrain, only_alpha, fit)
  * pdffitx/modeling/setting.py  (get_variable, set_values, get_value_dct)
  * pdffitx/modeling/main.py     (optimize)
  * pdffitx/model.py             (ModelBase.set_order, ModelBase._check_order,
    ModelBase.calc_phase)

Parameter values are modelled as rationals (the Python floats 0., 0.05, ...
appear as exact rationals; no claim below depends on floating-point
rounding).  The parameter registry itself (diffpy.srfit FitRecipe) is an
external collaborator of the repository; its operations (addVar, newVar,
constrain, fix, free, getNames, getValues, setValue and the bounded
least-squares solver writeback) are modelled from the specification of the
Parameter Registry and of the solver interface (spec sections 4.1, 4.5, 6).
Python strings are Lean strings; str.isalnum / str.isalpha / str.isdigit
are modelled by the corresponding ASCII Char predicates.
-/

set_option autoImplicit false

namespace Pdffitx

/-- Parameter values: rationals standing for the Python floats. -/
abbrev Value := Rat

/-- Modelled from the spec (section 4.1 and section 3, Parameter): a named
fit variable with a value, optional box bounds (none encodes an infinite
bound), a fixed/free flag and a list of tags. -/
structure Variable where
  name : String
  value : Value
  lb : Option Value := none
  ub : Option Value := none
  fixed : Bool := false
  tags : List String := []
  deriving Repr, DecidableEq

/-- Modelled from the spec (section 3, Recipe / Registry root): the variables
in insertion order together with the equality constraints, each constraint
mapping a dependent quantity (keyed by a string such as "Ni0.Biso") to the
name of its representative independent variable. -/
structure Recipe where
  vars : List Variable := []
  constraints : List (String × String) := []
  deriving Repr, DecidableEq

/-- Modelled from the spec (section 4.1, add): appending a variable to the
registry in insertion order (srfit FitRecipe.addVar). -/
def Recipe.addVar (r : Recipe) (v : Variable) : Recipe :=
  { r with vars := r.vars ++ [v] }

/-- Modelled from the spec (section 4.1): srfit FitRecipe.newVar creates a
fresh variable in the registry, like addVar without a wrapped parameter. -/
def Recipe.newVar (r : Recipe) (v : Variable) : Recipe :=
  r.addVar v

/-- Modelled from the spec (section 4.1, constrain): record a one-way value
dependency from a dependent quantity to a representative variable name. -/
def Recipe.constrain (r : Recipe) (dep : String) (rep : String) : Recipe :=
  { r with constraints := r.constraints ++ [(dep, rep)] }

/-- Modelled from the spec (section 4.1, fix/free): a selector matches a
variable when it is the literal selector "all", the variable name, or one
of the variable tags. -/
def selectorMatches (sel : String) (v : Variable) : Bool :=
  sel == "all" || v.name == sel || v.tags.contains sel

/-- Modelled from the spec (section 4.1): fix(selector) sets the fixed flag
of every matching variable. -/
def Recipe.fixSel (r : Recipe) (sel : String) : Recipe :=
  { r with vars :=
      r.vars.map (fun v => if selectorMatches sel v then { v with fixed := true } else v) }

/-- Modelled from the spec (section 4.1): free(selector) clears the fixed
flag of every matching variable. -/
def Recipe.freeSel (r : Recipe) (sel : String) : Recipe :=
  { r with vars :=
      r.vars.map (fun v => if selectorMatches sel v then { v with fixed := false } else v) }

/-- Modelled from the spec (section 4.1, getValues/getNames): names of the
free variables only, in stable insertion order. -/
def Recipe.getNames (r : Recipe) : List String :=
  (r.vars.filter (fun v => !v.fixed)).map (fun v => v.name)

/-- Modelled from the spec (section 4.1): values of the free variables only,
in the same stable order as getNames. -/
def Recipe.getValues (r : Recipe) : List Value :=
  (r.vars.filter (fun v => !v.fixed)).map (fun v => v.value)

/-- Modelled from the spec (section 4.1): bounds of the free variables only,
in the same stable order as getNames. -/
def Recipe.getBounds (r : Recipe) : List (Option Value × Option Value) :=
  (r.vars.filter (fun v => !v.fixed)).map (fun v => (v.lb, v.ub))

/-- Modelled from the spec (section 4.1): Parameter.setValue through the
registry; every variable carrying the given name receives the value. -/
def Recipe.setValue (r : Recipe) (name : String) (value : Value) : Recipe :=
  { r with vars :=
      r.vars.map (fun v => if v.name == name then { v with value := value } else v) }

/-- Names of all variables of the registry (free and fixed). -/
def Recipe.varNames (r : Recipe) : List String :=
  r.vars.map (fun v => v.name)

/-- All tags present in the registry (srfit _tagmanager.alltags()). -/
def Recipe.allTags (r : Recipe) : List String :=
  (r.vars.map (fun v => v.tags)).flatten

/-- Positional writeback of solver results: the k-th free variable receives
the k-th returned value, fixed variables are untouched (spec section 4.5:
the returned values are written back before the next stage). -/
def writeBack : List Variable → List Value → List Variable
  | [], _ => []
  | v :: vs, ws =>
    if v.fixed then v :: writeBack vs ws
    else
      match ws with
      | [] => v :: vs
      | w :: ws2 => { v with value := w } :: writeBack vs ws2

/-- Modelled from the spec (section 4.5): write the solver output into the
free slots of the registry. -/
def Recipe.setFreeValues (r : Recipe) (ws : List Value) : Recipe :=
  { r with vars := writeBack r.vars ws }

/-- Python str.join semantics: concatenate the parts with the separator
between consecutive parts. -/
def pyJoin (sep : String) : List String → String
  | [] => ""
  | [x] => x
  | x :: y :: xs => x ++ sep ++ pyJoin sep (y :: xs)

/-- Worker for pyReplace: the first argument counts characters still to be
skipped because they belong to an already-replaced occurrence. -/
def pyReplaceAux (old new : List Char) : Nat → List Char → List Char
  | _, [] => []
  | Nat.succ k, _ :: cs => pyReplaceAux old new k cs
  | 0, c :: cs =>
    if !old.isEmpty && old.isPrefixOf (c :: cs) then
      new ++ pyReplaceAux old new (old.length - 1) cs
    else
      c :: pyReplaceAux old new 0 cs

/-- Python str.replace semantics for a non-empty pattern: replace every
non-overlapping occurrence of old by new, scanning left to right. -/
def pyReplace (old new : List Char) (s : List Char) : List Char :=
  pyReplaceAux old new 0 s

/-- Separator used by bleach in pdffitx/modeling/adding.py: the source
chains the replace calls on the empty string literal, so the separator is
the empty string (the replacements act on the separator, not on the
argument). -/
def bleachSep : String :=
  ⟨pyReplace ("-".data) ("n".data) (pyReplace ("+".data) ("p".data) ("".data))⟩

/-- Embeds bleach from pdffitx/modeling/adding.py: join with the separator
above over the characters of the input that satisfy isalnum. -/
def bleach (s : String) : String :=
  pyJoin bleachSep ((s.data.filter (fun c => c.isAlphanum)).map (fun c => String.singleton c))

/-- Embeds only_alpha from pdffitx/modeling/fitfuncs.py: join on the empty
string over the characters of the input that satisfy isalpha. -/
def only_alpha (s : String) : String :=
  pyJoin "" ((s.data.filter (fun c => c.isAlpha)).map (fun c => String.singleton c))




/-- Python exception values raised by the embedded functions. -/
inductive PyErr where
  | valueError (msg : String)
  | keyError (msg : String)
  | typeError (msg : String)
  | nameError (name : String)
  deriving Repr, DecidableEq

/-- Modelled from the spec (section 6, structural model objects): an atom
of the external structure object, exposing a label, an element label, an
isotropic displacement value and fractional coordinates. -/
structure Atom where
  name : String
  element : String
  Biso : Value
  x : Value := 0
  y : Value := 0
  z : Value := 0
  deriving Repr, DecidableEq

/-- Modelled from the spec (section 6): an independent parameter emitted by
the external symmetry reduction (sgpars.latpars / xyzpars / adppars), as a
name and current value. -/
structure SGPar where
  name : String
  value : Value
  deriving Repr, DecidableEq

/-- Modelled from the spec (section 6, structural model objects): the phase
of a generator, with its atom list, its full lattice values and the
independent parameter lists produced by the external symmetry library. -/
structure Phase where
  atoms : List Atom
  latpars : List SGPar := []
  adppars : List SGPar := []
  xyzpars : List SGPar := []
  a : Value := 1
  b : Value := 1
  c : Value := 1
  alpha : Value := 90
  beta : Value := 90
  gamma : Value := 90
  deriving Repr, DecidableEq

/-- Full lattice parameter list of srfit (phase.getLattice()), with the
canonical srfit parameter names. -/
def Phase.getLattice (p : Phase) : List SGPar :=
  [⟨"a", p.a⟩, ⟨"b", p.b⟩, ⟨"c", p.c⟩, ⟨"alpha", p.alpha⟩, ⟨"beta", p.beta⟩, ⟨"gamma", p.gamma⟩]

/-- A PDF generator as seen by the adding/constraining code: its srfit name
and its phase, plus the scale and delta parameter values (the srfit
parameters gen.scale, gen.delta1, gen.delta2 carry the fixed names
"scale", "delta1", "delta2"). -/
structure Gen where
  name : String
  phase : Phase
  scale : Value := 1
  delta1 : Value := 0
  delta2 : Value := 0
  deriving Repr, DecidableEq

/-- Python truthiness of an optional string: None and the empty string are
falsy (the mode checks in adding.py read `if not mode: return`). -/
def pyFalsy : Option String → Bool
  | none => true
  | some s => s == ""

/-- Python str.isdigit: non-empty and all characters are digits. -/
def strIsDigits (s : String) : Bool :=
  !s.data.isEmpty && s.data.all (fun c => c.isDigit)

/-- Python int() on a digit string. -/
def strToNat (s : String) : Nat :=
  s.data.foldl (fun n c => n * 10 + (c.toNat - 48)) 0

/-- Python str.split on a one-character separator: empty parts are kept,
the empty string yields one empty part. -/
def pySplitChar (sep : Char) : List Char → List (List Char)
  | [] => [[]]
  | c :: cs =>
    match pySplitChar sep cs with
    | [] => [[c]]
    | h :: t => if c = sep then [] :: h :: t else (c :: h) :: t

/-- Python name.split under the underscore separator, as used by
rename_by_atom and add_adp. -/
def pySplitUnderscore (s : String) : List String :=
  (pySplitChar (Char.ofNat 95) s.data).map (fun l => (⟨l⟩ : String))

/-- Embeds rename_by_atom from pdffitx/modeling/adding.py: split the name
on underscores; when the second component is a digit index into the atom
list, substitute the atom label for it and reverse the component order;
rejoin with underscores. -/
def rename_by_atom (name : String) (atoms : List Atom) : String :=
  let parts := pySplitUnderscore name
  let parts2 :=
    match parts with
    | p0 :: p1 :: rest =>
      if strIsDigits p1 && strToNat p1 < atoms.length then
        (p0 :: (((atoms.get? (strToNat p1)).map (fun a => a.name)).getD p1) :: rest).reverse
      else parts
    | _ => parts
  pyJoin "_" parts2

/-- Default ADP value 0.05 used by adding.py and fitfuncs.py. -/
def defaultBiso : Value := 1 / 20

/-- Embeds add_scale from pdffitx/modeling/adding.py. -/
def add_scale (r : Recipe) (gen : Gen) (scale : Bool) : Recipe :=
  if !scale then r
  else
    r.addVar
      { name := gen.name ++ "_scale", value := 0, lb := some 0, ub := none, fixed := false,
        tags := [gen.name ++ "_scale", "scale", gen.name] }

/-- Embeds add_delta from pdffitx/modeling/adding.py; the unknown-mode
branch raises ValueError (the InvalidModeError of the spec taxonomy). -/
def add_delta (r : Recipe) (gen : Gen) (delta : Option String) : Except PyErr Recipe :=
  if pyFalsy delta then .ok r
  else
    match delta with
    | none => .ok r
    | some s =>
      if s = "1" then
        .ok (r.addVar
          { name := gen.name ++ "_delta1", value := 0, lb := some 0, ub := none, fixed := false,
            tags := [gen.name ++ "_delta", "delta", gen.name] })
      else if s = "2" then
        .ok (r.addVar
          { name := gen.name ++ "_delta2", value := 0, lb := some 0, ub := none, fixed := false,
            tags := [gen.name ++ "_delta", "delta", gen.name] })
      else .error (.valueError ("Unknown delta: " ++ s ++ ". Allowed: delta1, delta2."))

/-- Variable built for one lattice parameter by add_lat. -/
def addLatVar (gen : Gen) (par : SGPar) : Variable :=
  { name := gen.name ++ "_" ++ par.name, value := par.value, lb := some 0, ub := none,
    fixed := false, tags := ["lat", gen.name, gen.name ++ "_lat"] }

/-- Embeds add_lat from pdffitx/modeling/adding.py. -/
def add_lat (r : Recipe) (gen : Gen) (lat : Option String) : Except PyErr Recipe :=
  if pyFalsy lat then .ok r
  else
    match lat with
    | none => .ok r
    | some s =>
      if s = "s" then
        .ok (gen.phase.latpars.foldl (fun acc par => acc.addVar (addLatVar gen par)) r)
      else if s = "a" then
        .ok (gen.phase.getLattice.foldl (fun acc par => acc.addVar (addLatVar gen par)) r)
      else .error (.valueError ("Unknown lat: " ++ s ++ ". Allowed: sg, all."))

/-- ADP tensor symbols accepted by add_adp in mode "s". -/
def adpSymbols : List String := ["Biso", "B11", "B22", "B33"]

/-- Independent per-element ADP variable created by add_adp in mode "e". -/
def adpEVar (gen : Gen) (element : String) : Variable :=
  { name := gen.name ++ "_" ++ bleach element ++ "_Biso", value := defaultBiso,
    lb := none, ub := none, fixed := false,
    tags := ["adp", gen.name, gen.name ++ "_adp"] }

/-- Variable built by add_adp for one (parameter, local name) pair in the
modes "a" and "s"; value falls back to 0.05 when the parameter value is
zero. -/
def addAdpVar (gen : Gen) (pn : SGPar × String) : Variable :=
  { name := gen.name ++ "_" ++ pn.2,
    value := if pn.1.value != 0 then pn.1.value else defaultBiso,
    lb := some 0, ub := none, fixed := false,
    tags := ["adp", gen.name, gen.name ++ "_adp"] }

/-- Embeds add_adp from pdffitx/modeling/adding.py.  Mode "e" creates one
fresh variable per element (the Python set of element labels is modelled
as dedup of the element list) and constrains every atom Biso to the
variable of its element; mode "a" adds one variable per atom; mode "s"
takes the space-group-reduced list (note that the source filters the name
list but zips it against the unfiltered parameter list, which is embedded
as written). -/
def add_adp (r : Recipe) (gen : Gen) (adp : Option String) : Except PyErr Recipe :=
  if pyFalsy adp then .ok r
  else
    let atoms := gen.phase.atoms
    match adp with
    | none => .ok r
    | some s =>
      if s = "e" then
        let elements := (atoms.map (fun a => a.element)).dedup
        let r1 := elements.foldl (fun acc el => acc.newVar (adpEVar gen el)) r
        .ok (atoms.foldl
          (fun acc atom =>
            acc.constrain (atom.name ++ ".Biso") (gen.name ++ "_" ++ bleach atom.element ++ "_Biso"))
          r1)
      else if s = "a" then
        let pars := atoms.map (fun a => (⟨"Biso", a.Biso⟩ : SGPar))
        let names := atoms.map (fun a => bleach a.name ++ "_Biso")
        .ok ((pars.zip names).foldl (fun acc pn => acc.addVar (addAdpVar gen pn)) r)
      else if s = "s" then
        let pars := gen.phase.adppars
        let names :=
          (pars.filter (fun p => adpSymbols.contains (((pySplitUnderscore p.name).headD "")))).map
            (fun p => rename_by_atom p.name atoms)
        .ok ((pars.zip names).foldl (fun acc pn => acc.addVar (addAdpVar gen pn)) r)
      else .error (.valueError ("Unknown adp: " ++ s ++ ". Allowed: element, sg, all."))

/-- Variable built by add_xyz for one (parameter, local name) pair; note
that the source passes neither a value nor fixed=True, so the variable
keeps the parameter value and is added free. -/
def addXyzVar (gen : Gen) (pn : SGPar × String) : Variable :=
  { name := gen.name ++ "_" ++ pn.2, value := pn.1.value, lb := none, ub := none,
    fixed := false, tags := ["xyz", gen.name, gen.name ++ "_xyz"] }

/-- Embeds add_xyz from pdffitx/modeling/adding.py. -/
def add_xyz (r : Recipe) (gen : Gen) (xyz : Option String) : Except PyErr Recipe :=
  if pyFalsy xyz then .ok r
  else
    let atoms := gen.phase.atoms
    match xyz with
    | none => .ok r
    | some s =>
      if s = "s" then
        let pars := gen.phase.xyzpars
        let names := pars.map (fun p => rename_by_atom p.name atoms)
        .ok ((pars.zip names).foldl (fun acc pn => acc.addVar (addXyzVar gen pn)) r)
      else if s = "a" then
        let pars := atoms.foldr
          (fun a acc => (⟨"x", a.x⟩ : SGPar) :: (⟨"y", a.y⟩ : SGPar) :: (⟨"z", a.z⟩ : SGPar) :: acc) []
        let names := atoms.foldr
          (fun a acc => (a.name ++ "_x") :: (a.name ++ "_y") :: (a.name ++ "_z") :: acc) []
        .ok ((pars.zip names).foldl (fun acc pn => acc.addVar (addXyzVar gen pn)) r)
      else .error (.valueError ("Unknown xyz: " ++ s ++ ". Allowed: s, a."))


/-- Dictionary default lookup, Python dct.get(key, default). -/
def lookupD {α : Type} (d : List (String × α)) (k : String) (dflt : α) : α :=
  (d.lookup k).getD dflt

/-- Scale variable added by sgconstrain in pdffitx/modeling/fitfuncs.py;
the name is the quantity followed by the generator name, and no tag is
passed for scale. -/
def sgScaleVar (gen : Gen) (dv : List (String × Value))
    (bounds : List (String × (Option Value × Option Value))) : Variable :=
  let nm := "scale_" ++ gen.name
  let bd := lookupD bounds nm (some 0, none)
  { name := nm, value := lookupD dv nm 0, lb := bd.1, ub := bd.2, fixed := false, tags := [] }

/-- Delta2 variable added by sgconstrain; no tag is passed. -/
def sgDeltaVar (gen : Gen) (dv : List (String × Value))
    (bounds : List (String × (Option Value × Option Value))) : Variable :=
  let nm := "delta2_" ++ gen.name
  let bd := lookupD bounds nm (some 0, none)
  { name := nm, value := lookupD dv nm 0, lb := bd.1, ub := bd.2, fixed := false, tags := [] }

/-- Lattice variable added by sgconstrain for one independent lattice
parameter; bounded to (0, 2 * value) by default and tagged lat_{gen}. -/
def sgLatVar (gen : Gen) (dv : List (String × Value))
    (bounds : List (String × (Option Value × Option Value))) (par : SGPar) : Variable :=
  let nm := par.name ++ "_" ++ gen.name
  let bd := lookupD bounds nm (some 0, some (2 * par.value))
  { name := nm, value := lookupD dv nm par.value, lb := bd.1, ub := bd.2, fixed := false,
    tags := ["lat_" ++ gen.name] }

/-- Per-element ADP variable created by sgconstrain, named
Biso_{element}_{gen} and tagged adp_{gen}. -/
def sgAdpVar (gen : Gen) (dv : List (String × Value))
    (bounds : List (String × (Option Value × Option Value))) (element : String) : Variable :=
  let nm := "Biso_" ++ only_alpha element ++ "_" ++ gen.name
  let bd := lookupD bounds nm (some 0, none)
  { name := nm, value := lookupD dv nm defaultBiso, lb := bd.1, ub := bd.2, fixed := false,
    tags := ["adp_" ++ gen.name] }

/-- Coordinate variable added by sgconstrain when add_xyz is true; the
source passes fixed=True for these. -/
def sgXyzVar (gen : Gen) (dv : List (String × Value))
    (bounds : List (String × (Option Value × Option Value))) (par : SGPar) : Variable :=
  let nm := par.name ++ "_" ++ gen.name
  let bd := lookupD bounds nm (none, none)
  { name := nm, value := lookupD dv nm par.value, lb := bd.1, ub := bd.2, fixed := true,
    tags := ["xyz_" ++ gen.name] }

/-- The part of sgconstrain before the xyz block: scale, delta2, the
space-group lattice parameters, the per-element ADP variables and the atom
Biso constraints, in source order. -/
def sgconstrainBase (r : Recipe) (gen : Gen) (dv : List (String × Value))
    (bounds : List (String × (Option Value × Option Value))) : Recipe :=
  let r1 := r.addVar (sgScaleVar gen dv bounds)
  let r2 := r1.addVar (sgDeltaVar gen dv bounds)
  let r3 := gen.phase.latpars.foldl (fun acc par => acc.addVar (sgLatVar gen dv bounds par)) r2
  let atoms := gen.phase.atoms
  let elements := (atoms.map (fun a => a.element)).dedup
  let r4 := elements.foldl (fun acc el => acc.newVar (sgAdpVar gen dv bounds el)) r3
  atoms.foldl
    (fun acc atom =>
      acc.constrain (atom.name ++ ".Biso") ("Biso_" ++ only_alpha atom.element ++ "_" ++ gen.name))
    r4

/-- Embeds sgconstrain from pdffitx/modeling/fitfuncs.py (the space-group
reduction itself, get_sgpars / constrainAsSpaceGroup, is the external
symmetry library; its output is the latpars/xyzpars lists of the phase).
The Python set of elements is modelled as dedup of the element list. -/
def sgconstrain (r : Recipe) (gen : Gen) (dv : List (String × Value))
    (bounds : List (String × (Option Value × Option Value))) (addXyz : Bool) : Recipe :=
  let rb := sgconstrainBase r gen dv bounds
  if addXyz then
    gen.phase.xyzpars.foldl (fun acc par => acc.addVar (sgXyzVar gen dv bounds par)) rb
  else rb

/-- Embeds get_variable from pdffitx/modeling/setting.py: dynamic lookup of
a fit variable by name, None when absent; raises ValueError when absent
and ignore is not set. -/
def get_variable (r : Recipe) (name : String) (ignore : Bool) :
    Except PyErr (Option Variable) :=
  match r.vars.find? (fun v => v.name == name) with
  | some v => .ok (some v)
  | none =>
    if ignore then .ok none
    else .error (.valueError ("Recipe does not have parameter " ++ name ++ "."))

/-- Embeds set_values from pdffitx/modeling/setting.py: iterate the
name-value pairs, look each name up, set the value of found variables. -/
def set_values (r : Recipe) (values : List (String × Value)) (ignore : Bool) :
    Except PyErr Recipe :=
  match values with
  | [] => .ok r
  | (n, v) :: rest =>
    match get_variable r n ignore with
    | .error e => .error e
    | .ok none => set_values r rest ignore
    | .ok (some _) => set_values (r.setValue n v) rest ignore

/-- Python dict insertion: overwrite the value of an existing key in place,
otherwise append the pair. -/
def dictInsert (d : List (String × Value)) (k : String) (v : Value) : List (String × Value) :=
  if d.any (fun p => p.1 == k) then d.map (fun p => if p.1 == k then (k, v) else p)
  else d ++ [(k, v)]

/-- Python dict built from an association list, later keys overwriting. -/
def dictOf (l : List (String × Value)) : List (String × Value) :=
  l.foldl (fun d p => dictInsert d p.1 p.2) []

/-- Embeds get_value_dct from pdffitx/modeling/setting.py:
dict(zip(recipe.getNames(), recipe.getValues())). -/
def get_value_dct (r : Recipe) : List (String × Value) :=
  dictOf (r.getNames.zip r.getValues)

/-- Solver-side numerical failures (non-convergence and the like),
propagated out of scipy.optimize.least_squares. -/
inductive SolverErr where
  | nonConvergence
  | numerical (msg : String)
  deriving Repr, DecidableEq

/-- Modelled from the spec (section 6): the external bounded least-squares
solver, as a function of the current free values and bounds returning the
refined free values or a numerical failure. -/
abbrev Solver := List Value → List (Option Value × Option Value) → Except SolverErr (List Value)

/-- Embeds fit from pdffitx/modeling/fitfuncs.py (one solver call on the
current free values and bounds of the recipe), with the writeback of the
solver result into the registry as specified in section 4.5. -/
def fitStep (solver : Solver) (r : Recipe) : Except SolverErr Recipe :=
  match solver r.getValues r.getBounds with
  | .ok ws => .ok (r.setFreeValues ws)
  | .error e => .error e

/-- One stage of the schedule of optimize in pdffitx/modeling/main.py: a
single tag string or an iterable of tag strings freed together. -/
inductive TagSpec where
  | one (t : String)
  | many (ts : List String)
  deriving Repr, DecidableEq

/-- Freeing one schedule entry: recipe.free(tag) or recipe.free(*tag). -/
def freeSpec (r : Recipe) : TagSpec → Recipe
  | .one t => r.freeSel t
  | .many ts => ts.foldl Recipe.freeSel r

/-- The stage loop of optimize from pdffitx/modeling/main.py: free the next
schedule entry, run one solver call, continue with the written-back
recipe. -/
def optimizeFrom (solver : Solver) (r : Recipe) : List TagSpec → Except SolverErr Recipe
  | [] => .ok r
  | t :: ts =>
    match fitStep solver (freeSpec r t) with
    | .error e => .error e
    | .ok r2 => optimizeFrom solver r2 ts

/-- Embeds optimize from pdffitx/modeling/main.py: recipe.fix("all"), then
free the schedule entries one by one, fitting after each unlock. -/
def optimize (solver : Solver) (r : Recipe) (tags : List TagSpec) : Except SolverErr Recipe :=
  optimizeFrom solver (r.fixSel "all") tags

/-- A schedule tag is known to the registry when it is a variable name or
a registered tag. -/
def tagKnown (r : Recipe) (t : String) : Bool :=
  r.varNames.contains t || r.allTags.contains t

/-- First unknown name inside one schedule entry. -/
def specUnknown (r : Recipe) : TagSpec → Option String
  | .one t => if tagKnown r t then none else some t
  | .many ts => ts.find? (fun t => !tagKnown r t)

/-- First unknown name of a whole schedule, in schedule order. -/
def firstUnknownTag (r : Recipe) (tags : List TagSpec) : Option String :=
  tags.findSome? (specUnknown r)

/-- Errors of the staged refinement controller: an unknown schedule tag
found during validation, or a solver failure tagged with its 1-based stage
index. -/
inductive RunErr where
  | unknownScheduleTag (t : String)
  | solverFailure (stage : Nat) (e : SolverErr)
  deriving Repr, DecidableEq

/-- Stage loop of the staged refinement controller, counting the solver
calls that were made; a solver failure aborts the schedule and is tagged
with the 1-based index of the failing stage. -/
def runStages (solver : Solver) (r : Recipe) (tags : List TagSpec) (stage : Nat) :
    Except RunErr Recipe × Nat :=
  match tags with
  | [] => (.ok r, 0)
  | t :: ts =>
    match fitStep solver (freeSpec r t) with
    | .error e => (.error (.solverFailure stage e), 1)
    | .ok r2 =>
      let p := runStages solver r2 ts (stage + 1)
      (p.1, p.2 + 1)

/-- Modelled from the spec: pdffitx/modeling/running.py is re-exported by
pdffitx.modeling as optimize and called with a validate keyword from
pdffitx/core.py and pdffitx/model.py, but the module itself is not under
src; its behaviour follows spec sections 4.5 and 7: with validation
enabled, every schedule tag must exist in the registry as a tag or a
variable name before the first transition, else the run fails with
UnknownScheduleTagError before any solver call; then fix-all and the
cumulative free/fit stage loop, a solver failure aborting the schedule
tagged with the stage index.  The second component counts solver calls. -/
def running_optimize (solver : Solver) (r : Recipe) (tags : List TagSpec)
    (validate : Bool) : Except RunErr Recipe × Nat :=
  if validate then
    match firstUnknownTag r tags with
    | some t => (.error (.unknownScheduleTag t), 0)
    | none => runStages solver (r.fixSel "all") tags 1
  else runStages solver (r.fixSel "all") tags 1

/-- A schedule element as accepted by ModelBase.set_order in
pdffitx/model.py: a string or a nested iterable of schedule elements. -/
inductive OrderItem where
  | str (s : String)
  | iter (xs : List OrderItem)

/-- The ModelBase state of pdffitx/model.py that set_order and calc_phase
touch: the recipe, the stored order, the generators of the single
contribution (a name-to-callable mapping) and the profile grid. -/
structure ModelBase where
  recipe : Recipe
  order : List OrderItem := []
  generators : List (String × (List Value → List Value)) := []
  profileX : List Value := []

/-- Attribute surface of the external diffpy.srfit FitRecipe object (its
methods and properties, from FitRecipe and its RecipeOrganizer base, plus
the contributions property of MyRecipe): hasattr(recipe, name) is true
for these names as well as for the dynamically attached fit variables. -/
def fitRecipeAttrs : List String :=
  ["name", "show", "fix", "free", "isFree", "addVar", "delVar", "newVar",
   "constrain", "unconstrain", "restrain", "unrestrain", "addContribution",
   "setWeight", "getValues", "getNames", "getBounds", "getBounds2",
   "boundsToRestraints", "residual", "scalarResidual", "fithooks",
   "pushFitHook", "popFitHook", "clearFitHooks", "registerFunction",
   "registerStringFunction", "evaluateEquation", "contributions"]

/-- Python hasattr(self._recipe, name): true when the name is a fit
variable attached to the recipe or one of the fixed attributes of the
FitRecipe object. -/
def hasattrRecipe (r : Recipe) (s : String) : Bool :=
  r.varNames.contains s || fitRecipeAttrs.contains s

/-- Embeds ModelBase._check_order from pdffitx/model.py: a string must be a
recipe attribute (a variable name or any method/property of the recipe
object, per hasattr) or a registered tag, else ValueError; an iterable is
checked elementwise; the TypeError branch for other types is unreachable
for OrderItem values. -/
def check_order (r : Recipe) : OrderItem → Except PyErr Unit
  | .str s =>
    if hasattrRecipe r s || r.allTags.contains s then .ok ()
    else .error (.valueError (s ++ " is not in the variable names."))
  | .iter [] => .ok ()
  | .iter (x :: xs) =>
    match check_order r x with
    | .error e => .error e
    | .ok () => check_order r (.iter xs)

/-- Embeds ModelBase.set_order from pdffitx/model.py: validate the whole
order first, then store it; on a validation error the model is left
unchanged and no solver is involved (set_order performs no solver call). -/
def set_order (m : ModelBase) (order : List OrderItem) : Except PyErr ModelBase :=
  match check_order m.recipe (.iter order) with
  | .error e => .error e
  | .ok () => .ok { m with order := order }

/-- First string of an order tree that fails the hasattr-or-tag check of
_check_order, in check traversal order. -/
def firstUnknownOrder (r : Recipe) : OrderItem → Option String
  | .str s =>
    if hasattrRecipe r s || r.allTags.contains s then none else some s
  | .iter [] => none
  | .iter (x :: xs) =>
    match firstUnknownOrder r x with
    | some t => some t
    | none => firstUnknownOrder r (.iter xs)

/-- Result array of ModelBase.calc_phase as documented (calculated y with
the grid as coordinate). -/
structure DataArray where
  y : List Value
  x : List Value
  deriving Repr, DecidableEq

/-- Local names assigned in the body of ModelBase.calc_phase before the
DataArray construction: the argument names and gs, p, y. -/
def calcPhaseLocals : List String := ["self", "name", "gs", "p", "y"]

/-- Module-level names of pdffitx/model.py (imports, functions, classes);
the name x is not among them, and it is not a Python builtin either. -/
def modelModuleGlobals : List String :=
  ["inspect", "math", "pathlib", "tp", "gridspec", "plt", "np", "xr",
   "FitResults", "initializeRecipe", "Parameter", "Profile", "Crystal", "md",
   "get_arg_names", "rename_args", "get_symbol", "get_unit", "plot_fits",
   "plot_fits_along_dim", "ModelBase", "MultiPhaseModel"]

/-- Embeds ModelBase.calc_phase from pdffitx/model.py: after the KeyError
guard it computes y = gs[name](p.x) and then builds
xr.DataArray(y, coords with the bare identifier x, dims by x); that
identifier is resolved against the assigned locals and the module globals,
and is found in neither, so the construction raises NameError for every
valid generator name. -/
def calc_phase (m : ModelBase) (name : String) : Except PyErr DataArray :=
  let gs := m.generators
  let p := m.profileX
  match gs.lookup name with
  | none => .error (.keyError ("There are no generators named " ++ name ++ "."))
  | some g =>
    let y := g p
    if calcPhaseLocals.contains "x" || modelModuleGlobals.contains "x" then
      .ok { y := y, x := p }
    else .error (.nameError "x")
/-- Modelled from the spec (section 3, ParameterGroup invariant): the
effective value of a dependent Biso quantity is the current value of the
representative variable it is constrained to. -/
def effBiso (r : Recipe) (atomName : String) : Option Value :=
  (r.constraints.lookup (atomName ++ ".Biso")).bind
    (fun rep => (r.vars.find? (fun v => v.name == rep)).map (fun v => v.value))

-- ### Concrete fixtures used by the witnesses and counterexamples

/-- A nickel atom at the origin. -/
def atomNi0 : Atom := { name := "Ni0", element := "Ni", Biso := 1 / 10 }

/-- A second nickel atom, same element label. -/
def atomNi1 : Atom := { name := "Ni1", element := "Ni", Biso := 1 / 10, x := 1 / 2, y := 1 / 2 }

/-- A cubic two-atom nickel phase: one independent lattice length and one
independent symmetry coordinate. -/
def phaseNi : Phase :=
  { atoms := [atomNi0, atomNi1], latpars := [⟨"a", 3⟩], xyzpars := [⟨"x_0", 1 / 2⟩] }

/-- Generator fixture named G0 over the nickel phase. -/
def gen0 : Gen := { name := "G0", phase := phaseNi }

/-- The empty recipe. -/
def recipe0 : Recipe := {}

/-- A registry with two variables carrying tags t1 and t2. -/
def recipeW : Recipe :=
  { vars :=
      [{ name := "s1", value := 1, tags := ["t1"] },
       { name := "s2", value := 2, tags := ["t2"] }] }

/-- The identity solver: returns the incoming free values unchanged. -/
def idSolver : Solver := fun vs _ => .ok vs

/-- A solver that always reports non-convergence. -/
def failSolver : Solver := fun _ _ => .error .nonConvergence

/-- Two-stage schedule over the tags of recipeW. -/
def tagsW : List TagSpec := [.one "t1", .one "t2"]

/-- recipeW after fix("all"). -/
def recipeWFixed : Recipe :=
  { vars :=
      [{ name := "s1", value := 1, fixed := true, tags := ["t1"] },
       { name := "s2", value := 2, fixed := true, tags := ["t2"] }] }

/-- recipeW after fix("all"), free("t1") and one identity solver call. -/
def recipeWStage1 : Recipe :=
  { vars :=
      [{ name := "s1", value := 1, fixed := false, tags := ["t1"] },
       { name := "s2", value := 2, fixed := true, tags := ["t2"] }] }

/-- ModelBase fixture over recipeW with one generator G0. -/
def modelW : ModelBase :=
  { recipe := recipeW, generators := [("G0", fun v => v)], profileX := [0] }

/-- The recipe produced by add_adp in element mode on recipe0 and gen0. -/
def recipeAdpE : Recipe :=
  { vars :=
      [{ name := "G0_Ni_Biso", value := defaultBiso, lb := none, ub := none,
         fixed := false, tags := ["adp", "G0", "G0_adp"] }],
    constraints := [("Ni0.Biso", "G0_Ni_Biso"), ("Ni1.Biso", "G0_Ni_Biso")] }

/-- The recipe produced by add_xyz in symmetry mode on recipe0 and gen0. -/
def recipeXyzS : Recipe :=
  { vars :=
      [{ name := "G0_Ni0_x", value := 1 / 2, lb := none, ub := none,
         fixed := false, tags := ["xyz", "G0", "G0_xyz"] }] }

-- ## Theorems

theorem bleachSep_eq : bleachSep = "" := by
  rfl

theorem pyJoin_nil_data (l : List Char) :
    (pyJoin "" (l.map (fun c => String.singleton c))).data = l := by
  induction l with
  | nil => rfl
  | cons c cs ih =>
    cases cs with
    | nil => rfl
    | cons d ds =>
      simp only [List.map, pyJoin] at ih ⊢
      show (String.singleton c ++ "" ++
        pyJoin "" (String.singleton d :: ds.map (fun c => String.singleton c))).data = _
      rw [String.data_append, String.data_append]
      simpa using congrArg (fun t => c :: t) ih

theorem bleach_data (s : String) :
    (bleach s).data = s.data.filter (fun c => c.isAlphanum) := by
  rw [bleach, bleachSep_eq, pyJoin_nil_data]

theorem only_alpha_data (s : String) :
    (only_alpha s).data = s.data.filter (fun c => c.isAlpha) := by
  rw [only_alpha, pyJoin_nil_data]

theorem foldl_addVar_eq {α : Type} (f : α → Variable) (l : List α) (r : Recipe) :
    l.foldl (fun acc x => acc.addVar (f x)) r =
      { vars := r.vars ++ l.map f, constraints := r.constraints } := by
  induction l generalizing r with
  | nil => simp
  | cons x xs ih =>
    simp only [List.foldl_cons, List.map_cons]
    rw [ih]
    simp [Recipe.addVar]

theorem foldl_constrain_eq {α : Type} (key rep : α → String) (l : List α) (r : Recipe) :
    l.foldl (fun acc a => acc.constrain (key a) (rep a)) r =
      { vars := r.vars, constraints := r.constraints ++ l.map (fun a => (key a, rep a)) } := by
  induction l generalizing r with
  | nil => simp
  | cons x xs ih =>
    simp only [List.foldl_cons, List.map_cons]
    rw [ih]
    simp [Recipe.constrain]

/-- C8: the name-sanitization functions bleach (adding.py) and only_alpha
(fitfuncs.py) are pure functions (hence deterministic) and their output
contains only alphanumeric characters, for every input string; only_alpha
keeps alphabetic characters only, a subset of the alphanumeric ones. -/
theorem sanitization_alphanumeric (s : String) :
    ((bleach s).data.all (fun c => c.isAlphanum)) = true
    ∧ ((only_alpha s).data.all (fun c => c.isAlpha)) = true
    ∧ ((only_alpha s).data.all (fun c => c.isAlphanum)) = true := by
  refine ⟨?_, ?_, ?_⟩
  · rw [bleach_data, List.all_eq_true]
    intro c hc
    exact (List.mem_filter.mp hc).2
  · rw [only_alpha_data, List.all_eq_true]
    intro c hc
    exact (List.mem_filter.mp hc).2
  · rw [only_alpha_data, List.all_eq_true]
    intro c hc
    have ha := (List.mem_filter.mp hc).2
    simp only [Char.isAlphanum]
    simp at ha ⊢
    exact Or.inl ha

/-- C10: calc_phase looks the generator up, raising KeyError for an
unknown name; for every known generator name it reaches the DataArray
construction, whose coords expression reads the bare identifier x, which
is neither an assigned local nor a module-level name, so a NameError is
raised and the documented DataArray is never returned. -/
theorem calc_phase_raises (m : ModelBase) (name : String) :
    ((m.generators.lookup name).isSome →
      calc_phase m name = .error (.nameError "x"))
    ∧ ((m.generators.lookup name).isNone →
      calc_phase m name =
        .error (.keyError ("There are no generators named " ++ name ++ "."))) := by
  have hx : (calcPhaseLocals.contains "x" || modelModuleGlobals.contains "x") = false := by
    decide
  constructor
  · intro h
    rw [calc_phase]
    cases hl : m.generators.lookup name with
    | none => rw [hl] at h; simp at h
    | some g =>
      simp only [hl]
      rw [if_neg]
      simp only [hx]
      simp
  · intro h
    rw [calc_phase]
    cases hl : m.generators.lookup name with
    | none => simp
    | some g => rw [hl] at h; simp at h

/-- Witness for C10 at a concrete model: the registered generator G0
raises the NameError on x, the unknown name G1 raises the KeyError. -/
theorem calc_phase_raises_witness :
    calc_phase modelW "G0" = .error (.nameError "x")
    ∧ calc_phase modelW "G1" =
        .error (.keyError ("There are no generators named " ++ "G1" ++ ".")) :=
  ⟨(calc_phase_raises modelW "G0").1 (by rfl),
   (calc_phase_raises modelW "G1").2 (by rfl)⟩

/-- Counterexample for C7: the empty string is an unrecognized mode token
(it is neither an allowed token nor None), yet none of the four adding
operations raises: the falsiness check `if not mode` treats it like None
and silently does nothing. -/
theorem invalid_mode_empty_string_counterexample :
    add_delta recipe0 gen0 (some "") = .ok recipe0
    ∧ add_lat recipe0 gen0 (some "") = .ok recipe0
    ∧ add_adp recipe0 gen0 (some "") = .ok recipe0
    ∧ add_xyz recipe0 gen0 (some "") = .ok recipe0 :=
  ⟨rfl, rfl, rfl, rfl⟩

/-- C7 amended: for every NON-EMPTY unrecognized mode token, the adding
operation fails with a ValueError (the spec taxonomy name is
InvalidModeError) and adds no variables (the error is raised before any
variable loop runs); the empty-string token, although outside the allowed
sets, is treated like None by the falsiness test and silently no-ops. -/
theorem invalid_mode_error_amended :
    (∀ (r : Recipe) (gen : Gen) (s : String), s ≠ "" → s ≠ "1" → s ≠ "2" →
      add_delta r gen (some s) =
        .error (.valueError ("Unknown delta: " ++ s ++ ". Allowed: delta1, delta2.")))
    ∧ (∀ (r : Recipe) (gen : Gen) (s : String), s ≠ "" → s ≠ "s" → s ≠ "a" →
      add_lat r gen (some s) =
        .error (.valueError ("Unknown lat: " ++ s ++ ". Allowed: sg, all.")))
    ∧ (∀ (r : Recipe) (gen : Gen) (s : String), s ≠ "" → s ≠ "e" → s ≠ "a" → s ≠ "s" →
      add_adp r gen (some s) =
        .error (.valueError ("Unknown adp: " ++ s ++ ". Allowed: element, sg, all.")))
    ∧ (∀ (r : Recipe) (gen : Gen) (s : String), s ≠ "" → s ≠ "s" → s ≠ "a" →
      add_xyz r gen (some s) =
        .error (.valueError ("Unknown xyz: " ++ s ++ ". Allowed: s, a."))) := by
  refine ⟨?_, ?_, ?_, ?_⟩
  · intro r gen s h0 h1 h2
    rw [add_delta, if_neg (by simp [pyFalsy, h0])]
    simp only [if_neg h1, if_neg h2]
  · intro r gen s h0 h1 h2
    rw [add_lat, if_neg (by simp [pyFalsy, h0])]
    simp only [if_neg h1, if_neg h2]
  · intro r gen s h0 h1 h2 h3
    rw [add_adp, if_neg (by simp [pyFalsy, h0])]
    simp only [if_neg h1, if_neg h2, if_neg h3]
  · intro r gen s h0 h1 h2
    rw [add_xyz, if_neg (by simp [pyFalsy, h0])]
    simp only [if_neg h1, if_neg h2]

/-- Witness for the amended C7 at the concrete token zzz of the spec
example. -/
theorem invalid_mode_error_amended_witness :
    add_delta recipe0 gen0 (some "zzz") =
      .error (.valueError ("Unknown delta: " ++ "zzz" ++ ". Allowed: delta1, delta2."))
    ∧ add_lat recipe0 gen0 (some "zzz") =
      .error (.valueError ("Unknown lat: " ++ "zzz" ++ ". Allowed: sg, all."))
    ∧ add_adp recipe0 gen0 (some "zzz") =
      .error (.valueError ("Unknown adp: " ++ "zzz" ++ ". Allowed: element, sg, all."))
    ∧ add_xyz recipe0 gen0 (some "zzz") =
      .error (.valueError ("Unknown xyz: " ++ "zzz" ++ ". Allowed: s, a.")) :=
  ⟨invalid_mode_error_amended.1 recipe0 gen0 "zzz" (by decide) (by decide) (by decide),
   invalid_mode_error_amended.2.1 recipe0 gen0 "zzz" (by decide) (by decide) (by decide),
   invalid_mode_error_amended.2.2.1 recipe0 gen0 "zzz" (by decide) (by decide) (by decide) (by decide),
   invalid_mode_error_amended.2.2.2 recipe0 gen0 "zzz" (by decide) (by decide) (by decide)⟩

/-- Counterexample for C4: on a structure whose symmetry reduction leaves
one independent coordinate, add_xyz in symmetry mode (adding.py) adds the
coordinate variable WITHOUT fixed=True, so it is free: the xyz category
contributes the free name G0_Ni0_x instead of zero free names. -/
theorem add_xyz_symmetry_free_counterexample :
    add_xyz recipe0 gen0 (some "s") = .ok recipeXyzS
    ∧ recipeXyzS.getNames = ["G0_Ni0_x"]
    ∧ recipeXyzS.vars.map (fun v => v.fixed) = [false] :=
  ⟨rfl, rfl, rfl⟩

/-- C4 amended: only the fitfuncs.sgconstrain path (add_xyz=True) marks
the space-group-reduced coordinate variables fixed; the adding.add_xyz
path (xyz="s") adds them as ordinary free variables, since the source
passes no fixed flag to addVar there. -/
theorem xyz_fixed_policy_amended :
    (∀ (r : Recipe) (gen : Gen) (dv : List (String × Value))
        (bounds : List (String × (Option Value × Option Value))),
      (sgconstrain r gen dv bounds true).vars =
        (sgconstrain r gen dv bounds false).vars
          ++ gen.phase.xyzpars.map (sgXyzVar gen dv bounds))
    ∧ (∀ (gen : Gen) (dv : List (String × Value))
        (bounds : List (String × (Option Value × Option Value))) (par : SGPar),
      (sgXyzVar gen dv bounds par).fixed = true)
    ∧ (∀ (r : Recipe) (gen : Gen),
      add_xyz r gen (some "s") =
        .ok (Recipe.mk
          (r.vars ++
            (gen.phase.xyzpars.zip
              (gen.phase.xyzpars.map (fun p => rename_by_atom p.name gen.phase.atoms))).map
              (addXyzVar gen))
          r.constraints))
    ∧ (∀ (gen : Gen) (pn : SGPar × String), (addXyzVar gen pn).fixed = false) := by
  refine ⟨?_, ?_, ?_, ?_⟩
  · intro r gen dv bounds
    rw [sgconstrain, sgconstrain]
    rw [if_pos rfl, if_neg (by simp)]
    rw [foldl_addVar_eq]
  · intro gen dv bounds par
    rfl
  · intro r gen
    simp only [add_xyz, pyFalsy]
    simp only [String.reduceBEq, String.reduceEq, Bool.false_eq_true, if_true, if_false,
      reduceIte]
    rw [foldl_addVar_eq]
  · intro gen pn
    rfl

/-- Counterexample for C5: the sgconstrain path of fitfuncs.py names the
derived parameters quantity-first ("scale_G0", "Biso_Ni_G0", "a_G0"), not
generator-first as the claimed pattern "G0_scale" / "G0_Ni_Biso" requires:
on the nickel fixture none of the emitted names starts with "G0_". -/
theorem sgconstrain_naming_counterexample :
    (sgconstrain recipe0 gen0 [] [] true).varNames =
      ["scale_G0", "delta2_G0", "a_G0", "Biso_Ni_G0", "x_0_G0"]
    ∧ ("scale_G0").data.take 3 ≠ ("G0_").data
    ∧ ("Biso_Ni_G0").data.take 3 ≠ ("G0_").data := by
  refine ⟨by rfl, by decide, by decide⟩

/-- C5 amended: the adding.py path names derived parameters
generator-first ({gen}_{quantity} for globals, {gen}_{label}_{quantity}
per element or atom), while the fitfuncs.sgconstrain path names them
quantity-first ({quantity}_{gen}, Biso_{element}_{gen}); both name
derivations are pure functions of the structural input, hence
deterministic. -/
theorem naming_pattern_amended :
    (∀ (r : Recipe) (gen : Gen),
      (add_scale r gen true).varNames = r.varNames ++ [gen.name ++ "_scale"])
    ∧ (∀ (r : Recipe) (gen : Gen),
      (add_adp r gen (some "e")).map Recipe.varNames =
        .ok (r.varNames ++
          ((gen.phase.atoms.map (fun a => a.element)).dedup).map
            (fun el => gen.name ++ "_" ++ bleach el ++ "_Biso")))
    ∧ (∀ (r : Recipe) (gen : Gen),
      (add_adp r gen (some "a")).map Recipe.varNames =
        .ok (r.varNames ++
          gen.phase.atoms.map (fun a => gen.name ++ "_" ++ (bleach a.name ++ "_Biso"))))
    ∧ (∀ (r : Recipe) (gen : Gen),
      (add_lat r gen (some "s")).map Recipe.varNames =
        .ok (r.varNames ++ gen.phase.latpars.map (fun p => gen.name ++ "_" ++ p.name)))
    ∧ (∀ (gen : Gen) (dv : List (String × Value))
        (bounds : List (String × (Option Value × Option Value))),
      (sgScaleVar gen dv bounds).name = "scale_" ++ gen.name)
    ∧ (∀ (gen : Gen) (dv : List (String × Value))
        (bounds : List (String × (Option Value × Option Value))) (el : String),
      (sgAdpVar gen dv bounds el).name = "Biso_" ++ only_alpha el ++ "_" ++ gen.name)
    ∧ (∀ (gen : Gen) (dv : List (String × Value))
        (bounds : List (String × (Option Value × Option Value))) (par : SGPar),
      (sgLatVar gen dv bounds par).name = par.name ++ "_" ++ gen.name) := by
  refine ⟨?_, ?_, ?_, ?_, fun _ _ _ => rfl, fun _ _ _ _ => rfl, fun _ _ _ _ => rfl⟩
  · intro r gen
    rw [add_scale]
    simp only [Bool.not_true, Bool.false_eq_true, if_false]
    simp [Recipe.varNames, Recipe.addVar]
  · intro r gen
    simp only [add_adp, pyFalsy]
    simp only [String.reduceBEq, String.reduceEq, Bool.false_eq_true, if_true, if_false,
      reduceIte]
    simp only [Recipe.newVar]
    rw [foldl_addVar_eq, foldl_constrain_eq]
    simp [Except.map, Recipe.varNames, adpEVar]
  · intro r gen
    simp only [add_adp, pyFalsy]
    simp only [String.reduceBEq, String.reduceEq, Bool.false_eq_true, if_true, if_false,
      reduceIte]
    rw [List.zip_map', foldl_addVar_eq]
    simp [Except.map, Recipe.varNames, addAdpVar]
  · intro r gen
    simp only [add_lat, pyFalsy]
    simp only [String.reduceBEq, String.reduceEq, Bool.false_eq_true, if_true, if_false,
      reduceIte]
    rw [foldl_addVar_eq]
    simp [Except.map, Recipe.varNames, addLatVar]

theorem string_append_right_injective (t : String) :
    Function.Injective (fun s : String => s ++ t) := by
  intro a b h
  have hd := congrArg String.data h
  simp only [String.data_append] at hd
  cases a with
  | mk da =>
    cases b with
    | mk db =>
      have : da = db := List.append_cancel_right hd
      rw [this]

theorem lookup_map_of_nodup {α : Type} (key : α → String) (rep : α → String) (l : List α)
    (hnd : (l.map key).Nodup) (a : α) (ha : a ∈ l) :
    (l.map (fun x => (key x, rep x))).lookup (key a) = some (rep a) := by
  induction l with
  | nil => cases ha
  | cons x xs ih =>
    rw [List.map_cons] at hnd
    have hx := (List.nodup_cons.mp hnd).1
    have hxs := (List.nodup_cons.mp hnd).2
    cases ha with
    | head =>
      simp [List.lookup]
    | tail _ hmem =>
      have hne : (key a == key x) = false := by
        rw [beq_eq_false_iff_ne]
        intro hkey
        exact hx (hkey ▸ List.mem_map_of_mem key hmem)
      simp only [List.map_cons, List.lookup, hne]
      exact ih hxs hmem

theorem find?_name_setValue (l : List Variable) (nm : String) (w : Value)
    (hex : ∃ v, v ∈ l ∧ v.name = nm) :
    ∃ y, (l.map (fun v => if v.name == nm then { v with value := w } else v)).find?
        (fun v => v.name == nm) = some y ∧ y.value = w := by
  induction l with
  | nil => obtain ⟨v, hv, _⟩ := hex; cases hv
  | cons v vs ih =>
    by_cases hv : v.name = nm
    · refine ⟨{ v with value := w }, ?_, rfl⟩
      simp [List.find?, hv]
    · have hvb : (v.name == nm) = false := by rw [beq_eq_false_iff_ne]; exact hv
      rw [List.map_cons, if_neg (by simp [hvb]), List.find?_cons_of_neg _ (by simp [hvb])]
      obtain ⟨u, hu, hun⟩ := hex
      cases hu with
      | head => exact absurd hun hv
      | tail _ hmem => exact ih ⟨u, hmem, hun⟩

/-- C6: constraining ADPs in element mode creates exactly one independent
Biso variable per distinct element label, and constrains every atom Biso
to the variable of its element, so that setting that variable to any
value makes the effective displacement of every atom of that element
equal to it; the hypotheses state that the atom Biso quantities were not
already constrained and that atom labels are distinct, which holds for a
freshly constrained structure. -/
theorem adp_element_mode_grouping (r : Recipe) (gen : Gen) (r2 : Recipe)
    (hok : add_adp r gen (some "e") = .ok r2)
    (hfreshC : ∀ a, a ∈ gen.phase.atoms →
      r.constraints.lookup (a.name ++ ".Biso") = none)
    (hnames : (gen.phase.atoms.map (fun a => a.name)).Nodup) :
    r2.vars = r.vars ++ ((gen.phase.atoms.map (fun a => a.element)).dedup).map (adpEVar gen)
    ∧ ((gen.phase.atoms.map (fun a => a.element)).dedup).Nodup
    ∧ (∀ a, a ∈ gen.phase.atoms →
        r2.constraints.lookup (a.name ++ ".Biso") =
          some (gen.name ++ "_" ++ bleach a.element ++ "_Biso"))
    ∧ (∀ a b, a ∈ gen.phase.atoms → b ∈ gen.phase.atoms → a.element = b.element →
        ∀ w : Value,
          effBiso (r2.setValue (gen.name ++ "_" ++ bleach a.element ++ "_Biso") w) a.name = some w
          ∧ effBiso (r2.setValue (gen.name ++ "_" ++ bleach a.element ++ "_Biso") w) b.name
              = some w) := by
  simp only [add_adp, pyFalsy] at hok
  simp only [String.reduceBEq, String.reduceEq, Bool.false_eq_true, if_true, if_false,
    reduceIte] at hok
  simp only [Recipe.newVar] at hok
  rw [foldl_addVar_eq, foldl_constrain_eq] at hok
  have hr2 : r2 = Recipe.mk
      (r.vars ++ ((gen.phase.atoms.map (fun a => a.element)).dedup).map (adpEVar gen))
      (r.constraints ++ gen.phase.atoms.map
        (fun a => (a.name ++ ".Biso", gen.name ++ "_" ++ bleach a.element ++ "_Biso"))) := by
    cases hok
    rfl
  have hkeynd : (gen.phase.atoms.map (fun a => a.name ++ ".Biso")).Nodup := by
    have : gen.phase.atoms.map (fun a => a.name ++ ".Biso") =
        (gen.phase.atoms.map (fun a => a.name)).map (fun s => s ++ ".Biso") := by
      rw [List.map_map]; rfl
    rw [this]
    exact hnames.map (string_append_right_injective ".Biso")
  have hlook : ∀ a, a ∈ gen.phase.atoms →
      r2.constraints.lookup (a.name ++ ".Biso") =
        some (gen.name ++ "_" ++ bleach a.element ++ "_Biso") := by
    intro a ha
    rw [hr2]
    show (r.constraints ++ _).lookup _ = _
    rw [List.lookup_append, hfreshC a ha, Option.none_or]
    exact lookup_map_of_nodup (fun a => a.name ++ ".Biso")
      (fun a => gen.name ++ "_" ++ bleach a.element ++ "_Biso") gen.phase.atoms hkeynd a ha
  have heff : ∀ a b, a ∈ gen.phase.atoms → b ∈ gen.phase.atoms → a.element = b.element →
      ∀ w : Value,
        effBiso (r2.setValue (gen.name ++ "_" ++ bleach a.element ++ "_Biso") w) b.name
          = some w := by
    intro a b ha hb hel w
    have hlb := hlook b hb
    rw [← hel] at hlb
    have hex : ∃ v, v ∈ r2.vars ∧ v.name = gen.name ++ "_" ++ bleach a.element ++ "_Biso" := by
      refine ⟨adpEVar gen a.element, ?_, rfl⟩
      rw [hr2]
      apply List.mem_append_right
      apply List.mem_map_of_mem
      rw [List.mem_dedup]
      exact List.mem_map_of_mem (fun a => a.element) ha
    obtain ⟨y, hy, hyv⟩ := find?_name_setValue r2.vars
      (gen.name ++ "_" ++ bleach a.element ++ "_Biso") w hex
    rw [effBiso]
    have hc : (r2.setValue (gen.name ++ "_" ++ bleach a.element ++ "_Biso") w).constraints
        = r2.constraints := rfl
    rw [hc, hlb]
    have hsv : (r2.setValue (gen.name ++ "_" ++ bleach a.element ++ "_Biso") w).vars
        = r2.vars.map (fun v =>
            if v.name == gen.name ++ "_" ++ bleach a.element ++ "_Biso" then
              { v with value := w }
            else v) := rfl
    simp only [Option.bind, hsv, hy, Option.map, hyv]
  refine ⟨by rw [hr2], List.nodup_dedup _, hlook, ?_⟩
  intro a b ha hb hel w
  refine ⟨heff a a ha ha rfl w, heff a b ha hb hel w⟩

/-- Witness for C6: two atoms share the element label Ni; element-mode
constraining produced exactly one independent variable G0_Ni_Biso, and
setting it to 7 drives the effective displacement of both atoms to 7. -/
theorem adp_element_mode_grouping_witness :
    recipeAdpE.vars =
      recipe0.vars ++ ((gen0.phase.atoms.map (fun a => a.element)).dedup).map (adpEVar gen0)
    ∧ effBiso (recipeAdpE.setValue ("G0" ++ "_" ++ bleach "Ni" ++ "_Biso") 7) "Ni0" = some 7
    ∧ effBiso (recipeAdpE.setValue ("G0" ++ "_" ++ bleach "Ni" ++ "_Biso") 7) "Ni1" = some 7 := by
  have hm0 : atomNi0 ∈ gen0.phase.atoms := List.Mem.head _
  have hm1 : atomNi1 ∈ gen0.phase.atoms := List.Mem.tail _ (List.Mem.head _)
  have h := adp_element_mode_grouping recipe0 gen0 recipeAdpE (by rfl)
    (fun a _ => rfl) (by decide)
  refine ⟨h.1, ?_, ?_⟩
  · exact (h.2.2.2 atomNi0 atomNi0 hm0 hm0 rfl 7).1
  · exact (h.2.2.2 atomNi0 atomNi1 hm0 hm1 rfl 7).2

theorem dictOf_aux (l : List (String × Value)) :
    ∀ (d : List (String × Value)), ((d ++ l).map Prod.fst).Nodup →
      l.foldl (fun d p => dictInsert d p.1 p.2) d = d ++ l := by
  induction l with
  | nil => intro d _; simp
  | cons p t ih =>
    intro d hnd
    obtain ⟨k, v⟩ := p
    have hk : k ∉ d.map Prod.fst := by
      intro hmem
      rw [List.map_append] at hnd
      have := (List.nodup_append.mp hnd).2.2
      exact this hmem (by simp)
    have hins : dictInsert d k v = d ++ [(k, v)] := by
      rw [dictInsert, if_neg]
      intro hc
      rw [List.any_eq_true] at hc
      obtain ⟨q, hq, hqk⟩ := hc
      exact hk (List.mem_map.mpr ⟨q, hq, by simpa using hqk⟩)
    simp only [List.foldl_cons, hins]
    rw [ih (d ++ [(k, v)]) (by simpa using hnd)]
    simp

theorem dictOf_eq_self (l : List (String × Value)) (h : (l.map Prod.fst).Nodup) :
    dictOf l = l := by
  rw [dictOf, dictOf_aux l [] (by simpa using h)]
  simp

theorem set_values_id_of_mem (r : Recipe)
    (h : (r.vars.map (fun v => v.name)).Nodup) :
    ∀ (d : List (String × Value)),
      (∀ p, p ∈ d → ∃ v, v ∈ r.vars ∧ v.name = p.1 ∧ v.value = p.2) →
      set_values r d false = .ok r := by
  intro d
  induction d with
  | nil => intro _; rfl
  | cons p t ih =>
    intro hall
    obtain ⟨n, w⟩ := p
    obtain ⟨v, hv, hn, hval⟩ := hall (n, w) (List.Mem.head _)
    have hfindSome : (r.vars.find? (fun x => x.name == n)).isSome := by
      rw [List.find?_isSome]
      exact ⟨v, hv, by simp [hn]⟩
    obtain ⟨u, hu⟩ := Option.isSome_iff_exists.mp hfindSome
    have hset : r.setValue n w = r := by
      rw [Recipe.setValue]
      have hmapid : r.vars.map
          (fun x => if x.name == n then { x with value := w } else x) = r.vars := by
        have : ∀ x, x ∈ r.vars →
            (if x.name == n then { x with value := w } else x) = x := by
          intro x hx
          by_cases hxn : x.name = n
          · have hxv : x = v := by
              apply List.inj_on_of_nodup_map h hx hv
              rw [hxn, hn]
            rw [if_pos (by simp [hxn])]
            have hw : w = x.value := by rw [hxv]; exact hval.symm
            rw [hw]
          · rw [if_neg (by simp [hxn])]
        calc r.vars.map (fun x => if x.name == n then { x with value := w } else x)
            = r.vars.map id := List.map_congr_left this
          _ = r.vars := List.map_id r.vars
      rw [hmapid]
    rw [set_values, get_variable, hu]
    show set_values (r.setValue n w) t false = .ok r
    rw [hset]
    exact ih (fun q hq => hall q (List.Mem.tail _ hq))

/-- C9: writing back the name-value dictionary read from the recipe
(set_values with get_value_dct, validation enabled) returns the recipe
unchanged, so the free-value vector is unchanged; the hypothesis is the
registry invariant that variable names are unique. -/
theorem set_values_roundtrip (r : Recipe)
    (h : (r.vars.map (fun v => v.name)).Nodup) :
    set_values r (get_value_dct r) false = .ok r
    ∧ (set_values r (get_value_dct r) false).map Recipe.getValues = .ok r.getValues := by
  have hzip : r.getNames.zip r.getValues =
      (r.vars.filter (fun v => !v.fixed)).map (fun v => (v.name, v.value)) := by
    rw [Recipe.getNames, Recipe.getValues, List.zip_map']
  have hkeys : ((r.getNames.zip r.getValues).map Prod.fst).Nodup := by
    rw [hzip, List.map_map]
    show ((r.vars.filter (fun v => !v.fixed)).map (fun v => v.name)).Nodup
    exact List.Nodup.sublist
      (List.Sublist.map (fun v => v.name) (List.filter_sublist r.vars)) h
  have hmain : set_values r (get_value_dct r) false = .ok r := by
    rw [get_value_dct, dictOf_eq_self _ hkeys, hzip]
    apply set_values_id_of_mem r h
    intro p hp
    obtain ⟨v, hvf, hvp⟩ := List.mem_map.mp hp
    exact ⟨v, (List.mem_filter.mp hvf).1, by rw [← hvp], by rw [← hvp]⟩
  exact ⟨hmain, by rw [hmain]; rfl⟩

/-- Witness for C9 at a concrete two-variable registry. -/
theorem set_values_roundtrip_witness :
    set_values recipeW (get_value_dct recipeW) false = .ok recipeW :=
  (set_values_roundtrip recipeW (by decide)).1

theorem writeBack_names_fixed (l : List Variable) :
    ∀ (ws : List Value),
      ((writeBack l ws).filter (fun v => !v.fixed)).map (fun v => v.name)
        = (l.filter (fun v => !v.fixed)).map (fun v => v.name) := by
  induction l with
  | nil => intro ws; rfl
  | cons v vs ih =>
    intro ws
    by_cases hf : v.fixed
    · simp only [writeBack, if_pos hf]
      rw [List.filter_cons, List.filter_cons]
      simp only [hf]
      exact ih ws
    · simp only [writeBack, if_neg hf]
      cases ws with
      | nil => rfl
      | cons w ws2 =>
        rw [List.filter_cons, List.filter_cons]
        have hf2 : ({ v with value := w } : Variable).fixed = v.fixed := rfl
        simp only [hf2, hf]
        simp only [Bool.not_false, if_pos]
        rw [List.map_cons, List.map_cons]
        rw [ih ws2]

theorem getNames_setFreeValues (r : Recipe) (ws : List Value) :
    (r.setFreeValues ws).getNames = r.getNames := by
  rw [Recipe.getNames, Recipe.getNames]
  exact writeBack_names_fixed r.vars ws

theorem getNames_fitStep (solver : Solver) (r s : Recipe)
    (h : fitStep solver r = .ok s) : s.getNames = r.getNames := by
  rw [fitStep] at h
  cases hs : solver r.getValues r.getBounds with
  | ok ws =>
    rw [hs] at h
    cases h
    exact getNames_setFreeValues r ws
  | error e => rw [hs] at h; cases h

theorem getNames_freeSel_superset (r : Recipe) (t : String) :
    r.getNames ⊆ (r.freeSel t).getNames := by
  intro a ha
  rw [Recipe.getNames] at ha ⊢
  obtain ⟨v, hvf, hvn⟩ := List.mem_map.mp ha
  have hv := (List.mem_filter.mp hvf).1
  have hfree := (List.mem_filter.mp hvf).2
  apply List.mem_map.mpr
  by_cases hm : selectorMatches t v
  · refine ⟨{ v with fixed := false }, ?_, hvn⟩
    apply List.mem_filter.mpr
    refine ⟨?_, by simp⟩
    rw [Recipe.freeSel]
    exact List.mem_map.mpr ⟨v, hv, by rw [if_pos hm]⟩
  · refine ⟨v, ?_, hvn⟩
    apply List.mem_filter.mpr
    refine ⟨?_, hfree⟩
    rw [Recipe.freeSel]
    exact List.mem_map.mpr ⟨v, hv, by rw [if_neg hm]⟩

theorem getNames_freeSpec_superset (r : Recipe) (t : TagSpec) :
    r.getNames ⊆ (freeSpec r t).getNames := by
  cases t with
  | one t => exact getNames_freeSel_superset r t
  | many ts =>
    rw [freeSpec]
    induction ts generalizing r with
    | nil => exact fun a ha => ha
    | cons t ts ih =>
      intro a ha
      rw [List.foldl_cons]
      exact ih (r.freeSel t) (getNames_freeSel_superset r t ha)

theorem optimizeFrom_superset (solver : Solver) :
    ∀ (ts : List TagSpec) (r s : Recipe),
      optimizeFrom solver r ts = .ok s → r.getNames ⊆ s.getNames := by
  intro ts
  induction ts with
  | nil =>
    intro r s h
    cases h
    exact fun a ha => ha
  | cons t ts ih =>
    intro r s h
    rw [optimizeFrom] at h
    cases hf : fitStep solver (freeSpec r t) with
    | error e => rw [hf] at h; cases h
    | ok r2 =>
      rw [hf] at h
      intro a ha
      apply ih r2 s h
      rw [getNames_fitStep solver (freeSpec r t) r2 hf]
      exact getNames_freeSpec_superset r t ha

theorem optimizeFrom_append (solver : Solver) :
    ∀ (ts us : List TagSpec) (r : Recipe),
      optimizeFrom solver r (ts ++ us) =
        match optimizeFrom solver r ts with
        | .ok s => optimizeFrom solver s us
        | .error e => .error e := by
  intro ts
  induction ts with
  | nil => intro us r; rfl
  | cons t ts ih =>
    intro us r
    rw [List.cons_append, optimizeFrom, optimizeFrom]
    cases hf : fitStep solver (freeSpec r t) with
    | error e => rfl
    | ok r2 => exact ih us r2

/-- C1: the staged optimize of pdffitx/modeling/main.py first fixes every
variable and then frees the schedule entries cumulatively: whenever the
runs over the first k and the first k+1 stages both succeed, the set of
free parameter names after stage k+1 contains the set of free names after
stage k. -/
theorem optimize_monotone_freeing (solver : Solver) (r : Recipe) (tags : List TagSpec)
    (k : Nat) (s1 s2 : Recipe) (hk : k < tags.length)
    (h1 : optimize solver r (tags.take k) = .ok s1)
    (h2 : optimize solver r (tags.take (k + 1)) = .ok s2) :
    s1.getNames ⊆ s2.getNames := by
  rw [optimize] at h1 h2
  rw [List.take_succ] at h2
  rw [optimizeFrom_append] at h2
  rw [h1] at h2
  change optimizeFrom solver s1 (tags[k]?.toList) = Except.ok s2 at h2
  rw [List.getElem?_eq_getElem hk] at h2
  show ∀ a, a ∈ s1.getNames → a ∈ s2.getNames
  intro a ha
  rw [Option.toList_some] at h2
  rw [optimizeFrom] at h2
  cases hf : fitStep solver (freeSpec s1 (tags[k])) with
  | error e => rw [hf] at h2; cases h2
  | ok r2 =>
    rw [hf] at h2
    cases h2
    rw [getNames_fitStep solver _ _ hf]
    exact getNames_freeSpec_superset s1 _ ha

/-- Witness for C1 on the two-variable registry with the two-stage
schedule and the identity solver, between stage 0 (all fixed) and
stage 1 (tag t1 freed). -/
theorem optimize_monotone_freeing_witness :
    recipeWFixed.getNames ⊆ recipeWStage1.getNames :=
  optimize_monotone_freeing idSolver recipeW tagsW 0 recipeWFixed recipeWStage1
    (by decide) (by rfl) (by rfl)

theorem check_order_ok_of_none (r : Recipe) :
    ∀ (o : OrderItem), firstUnknownOrder r o = none → check_order r o = .ok ()
  | .str s => by
    intro h
    simp only [firstUnknownOrder] at h
    simp only [check_order]
    by_cases hk : (hasattrRecipe r s || r.allTags.contains s) = true
    · rw [if_pos hk]
    · rw [if_neg hk] at h
      cases h
  | .iter [] => by intro _; simp only [check_order]
  | .iter (x :: xs) => by
    intro h
    simp only [firstUnknownOrder] at h
    simp only [check_order]
    cases hx : firstUnknownOrder r x with
    | some t => rw [hx] at h; cases h
    | none =>
      rw [hx] at h
      rw [check_order_ok_of_none r x hx]
      exact check_order_ok_of_none r (.iter xs) h

theorem check_order_error_of_some (r : Recipe) :
    ∀ (o : OrderItem) (t : String), firstUnknownOrder r o = some t →
      check_order r o = .error (.valueError (t ++ " is not in the variable names."))
  | .str s => by
    intro t h
    simp only [firstUnknownOrder] at h
    simp only [check_order]
    by_cases hk : (hasattrRecipe r s || r.allTags.contains s) = true
    · rw [if_pos hk] at h; cases h
    · rw [if_neg hk] at h
      rw [if_neg hk]
      have ht : s = t := Option.some.inj h
      rw [ht]
  | .iter [] => by
    intro t h
    simp only [firstUnknownOrder] at h
    cases h
  | .iter (x :: xs) => by
    intro t h
    simp only [firstUnknownOrder] at h
    simp only [check_order]
    cases hx : firstUnknownOrder r x with
    | some u =>
      rw [hx] at h
      have ht : u = t := Option.some.inj h
      rw [← ht]
      rw [check_order_error_of_some r x u hx]
    | none =>
      rw [hx] at h
      rw [check_order_ok_of_none r x hx]
      exact check_order_error_of_some r (.iter xs) t h

theorem runStages_not_unknown (solver : Solver) :
    ∀ (ts : List TagSpec) (r : Recipe) (stage : Nat) (t : String),
      (runStages solver r ts stage).1 ≠ .error (.unknownScheduleTag t) := by
  intro ts
  induction ts with
  | nil => intro r stage t h; cases h
  | cons u us ih =>
    intro r stage t
    rw [runStages]
    cases hf : fitStep solver (freeSpec r u) with
    | error e => intro h; cases h
    | ok r2 =>
      show ((runStages solver r2 us (stage + 1)).1, _).1 ≠ _
      exact ih r2 (stage + 1) t

theorem set_order_attr_ok (m : ModelBase) (s : String)
    (h : fitRecipeAttrs.contains s = true) :
    set_order m [.str s] = .ok { m with order := [.str s] } := by
  have hiter : check_order m.recipe (.iter [.str s]) = .ok () := by
    have hm : s ∈ fitRecipeAttrs := by simpa using h
    simp only [check_order]
    rw [if_pos (by simp [hasattrRecipe]; exact Or.inl (Or.inr hm))]
  rw [set_order, hiter]

/-- Counterexample for C2: the string fix is neither a registered tag nor
a parameter name of the two-variable registry, yet set_order accepts the
schedule and stores it without raising, because _check_order tests
hasattr(self._recipe, order) and fix is a method of the FitRecipe object;
so the claimed universal validation failure does not hold in model.py. -/
theorem set_order_recipe_attribute_counterexample :
    recipeW.varNames.contains "fix" = false
    ∧ recipeW.allTags.contains "fix" = false
    ∧ set_order modelW [.str "fix"] = .ok { modelW with order := [.str "fix"] } :=
  ⟨rfl, rfl, set_order_attr_ok modelW "fix" (by decide)⟩

/-- C2 amended: ModelBase.set_order validates each schedule string with
hasattr-or-registered-tag, so a string that is neither a recipe attribute
(a parameter name or a FitRecipe method/property such as fix or show) nor
a registered tag raises the ValueError of _check_order before any solver
call and without storing the order, while a string naming a non-parameter
recipe attribute passes validation silently; the staged controller
(spec-modelled running.py) with validation enabled fails with
UnknownScheduleTagError after zero solver calls on a tag that is neither
registered nor a parameter name, and with validation explicitly disabled
no such error is ever raised. -/
theorem schedule_validation_unknown_tag :
    (∀ (m : ModelBase) (order : List OrderItem) (t : String),
      firstUnknownOrder m.recipe (.iter order) = some t →
        set_order m order = .error (.valueError (t ++ " is not in the variable names.")))
    ∧ (∀ (m : ModelBase) (s : String), fitRecipeAttrs.contains s = true →
      set_order m [.str s] = .ok { m with order := [.str s] })
    ∧ (∀ (solver : Solver) (r : Recipe) (tags : List TagSpec) (t : String),
      firstUnknownTag r tags = some t →
        running_optimize solver r tags true = (.error (.unknownScheduleTag t), 0))
    ∧ (∀ (solver : Solver) (r : Recipe) (tags : List TagSpec) (t : String),
      (running_optimize solver r tags false).1 ≠ .error (.unknownScheduleTag t)) := by
  refine ⟨?_, ?_, ?_, ?_⟩
  · intro m order t h
    rw [set_order, check_order_error_of_some m.recipe (.iter order) t h]
  · intro m s h
    exact set_order_attr_ok m s h
  · intro solver r tags t h
    rw [running_optimize, if_pos rfl, h]
  · intro solver r tags t
    rw [running_optimize]
    simp only [Bool.false_eq_true, if_false]
    exact runStages_not_unknown solver tags (r.fixSel "all") 1 t

/-- Witness for the amended C2: lat_G9 is no attribute, variable or tag,
so set_order and the validating controller reject it; the attribute name
show passes set_order; with validation disabled no unknown-tag error. -/
theorem schedule_validation_unknown_tag_witness :
    set_order modelW [.str "lat_G9"] =
      .error (.valueError ("lat_G9" ++ " is not in the variable names."))
    ∧ set_order modelW [.str "show"] = .ok { modelW with order := [.str "show"] }
    ∧ running_optimize idSolver recipeW [.one "lat_G9"] true =
      (.error (.unknownScheduleTag "lat_G9"), 0)
    ∧ (running_optimize idSolver recipeW [.one "lat_G9"] false).1 ≠
      .error (.unknownScheduleTag "lat_G9") :=
  ⟨schedule_validation_unknown_tag.1 modelW [.str "lat_G9"] "lat_G9"
     (by simp [firstUnknownOrder, hasattrRecipe, fitRecipeAttrs, modelW, recipeW,
        Recipe.varNames, Recipe.allTags]),
   schedule_validation_unknown_tag.2.1 modelW "show" (by decide),
   schedule_validation_unknown_tag.2.2.1 idSolver recipeW [.one "lat_G9"] "lat_G9" (by rfl),
   schedule_validation_unknown_tag.2.2.2 idSolver recipeW [.one "lat_G9"] "lat_G9"⟩

theorem runStages_append_ok (solver : Solver) :
    ∀ (ts : List TagSpec) (r s : Recipe), optimizeFrom solver r ts = .ok s →
      ∀ (us : List TagSpec) (stage : Nat),
        runStages solver r (ts ++ us) stage =
          ((runStages solver s us (stage + ts.length)).1,
            (runStages solver s us (stage + ts.length)).2 + ts.length) := by
  intro ts
  induction ts with
  | nil =>
    intro r s h us stage
    cases h
    simp
  | cons t ts ih =>
    intro r s h us stage
    rw [optimizeFrom] at h
    cases hf : fitStep solver (freeSpec r t) with
    | error e => rw [hf] at h; cases h
    | ok r2 =>
      rw [hf] at h
      rw [List.cons_append, runStages, hf]
      change ((runStages solver r2 (ts ++ us) (stage + 1)).1,
          (runStages solver r2 (ts ++ us) (stage + 1)).2 + 1) = _
      rw [ih r2 s h us (stage + 1)]
      have harith : stage + 1 + ts.length = stage + (ts.length + 1) := by omega
      rw [harith]
      simp [Nat.add_assoc]

/-- C3: when the first k stages of the schedule succeed and the solver
call of stage k+1 fails, the staged refinement controller aborts the
whole schedule (exactly k+1 solver calls are made, none for any later
stage) and surfaces the solver exception tagged with the 1-based failing
stage index k+1; the validation hypothesis only makes both values of the
validate flag take the same path. -/
theorem solver_failure_aborts_tagged (solver : Solver) (r : Recipe) (tags : List TagSpec)
    (k : Nat) (t : TagSpec) (rest : List TagSpec) (s : Recipe) (e : SolverErr)
    (validate : Bool)
    (hval : firstUnknownTag r tags = none)
    (hsplit : tags.drop k = t :: rest)
    (hpre : optimizeFrom solver (r.fixSel "all") (tags.take k) = .ok s)
    (hfail : fitStep solver (freeSpec s t) = .error e) :
    running_optimize solver r tags validate = (.error (.solverFailure (k + 1) e), k + 1) := by
  have hk : k ≤ tags.length := by
    by_contra hgt
    rw [List.drop_eq_nil_of_le (by omega)] at hsplit
    cases hsplit
  have hbody : runStages solver (r.fixSel "all") tags 1 =
      (.error (.solverFailure (k + 1) e), k + 1) := by
    have hsplit2 : tags.take k ++ (t :: rest) = tags := by
      rw [← hsplit, List.take_append_drop]
    have happ := runStages_append_ok solver (tags.take k) (r.fixSel "all") s hpre
      (t :: rest) 1
    rw [hsplit2] at happ
    have hlen : (tags.take k).length = k := by
      rw [List.length_take]
      omega
    rw [hlen] at happ
    have hrun : runStages solver s (t :: rest) (1 + k) =
        (.error (.solverFailure (1 + k) e), 1) := by
      rw [runStages, hfail]
    rw [happ, hrun]
    have h1k : 1 + k = k + 1 := by omega
    rw [h1k]
  cases validate with
  | true => rw [running_optimize, if_pos rfl, hval, hbody]
  | false => rw [running_optimize]; simp only [Bool.false_eq_true, if_false]; rw [hbody]

/-- Witness for C3: the always-failing solver aborts the one-stage
schedule at stage 1 after exactly one solver call, with the
non-convergence error tagged with the stage index. -/
theorem solver_failure_aborts_tagged_witness :
    running_optimize failSolver recipeW [.one "t1"] true =
      (.error (.solverFailure 1 .nonConvergence), 1) :=
  solver_failure_aborts_tagged failSolver recipeW [.one "t1"] 0 (.one "t1") [] recipeWFixed
    .nonConvergence true (by rfl) (by rfl) (by rfl) (by rfl)

end Pdffitx
